import Mathlib

/-!
Verification of the `cocoa_toolhead` on-toolhead memory module
(`klippy/extras/cocoa_toolhead/memory.py`): the 32-byte `Header` binary
codec, the CRC-16 checksum utility, and the attach/save/key-value
lifecycle controller `CocoaMemory`.

Bytes are modelled as natural numbers below 256, byte strings as
`List Nat`.  Fallible operations return `Except` or carry an explicit
`Option`-typed error field so that the state left behind by a failing
operation is visible in the model.
-/

namespace CocoaMem

/-! ### CRC-16 checksum -/

/-- Modelled from the spec: `crc16_ccitt` is imported from
`klippy/msgproto.py`, which is outside the sources at hand.  The spec
describes it as "a 16-bit CRC (CCITT variant) over an arbitrary byte
sequence" whose value on the empty sequence is the fixed constant
`0xFFFF`.  This is one step of the MSB-first CCITT bit recurrence
(polynomial `0x1021`, 16-bit state). -/
def crcBit (s : Nat) (b : Bool) : Nat :=
  let s2 := (s <<< 1) &&& 0xffff
  if s.testBit 15 != b then s2 ^^^ 0x1021 else s2

/-- Feed one byte, most significant bit first, into the CRC state. -/
def crcByte (s b : Nat) : Nat :=
  crcBit (crcBit (crcBit (crcBit (crcBit (crcBit (crcBit (crcBit
    s (b.testBit 7)) (b.testBit 6)) (b.testBit 5)) (b.testBit 4))
      (b.testBit 3)) (b.testBit 2)) (b.testBit 1)) (b.testBit 0)

/-- Run the CRC over a byte list starting from state `s`. -/
def crcList (s : Nat) (m : List Nat) : Nat :=
  m.foldl crcByte s

/-- Modelled from the spec: CRC-16/CCITT with initial state `0xFFFF`,
so that the empty byte sequence checksums to `0xFFFF`. -/
def crc16 (m : List Nat) : Nat :=
  crcList 0xffff m

/-- Modelled from the spec: the two checksum bytes as produced by
`bytes(crc16_ccitt(...))` — high byte first. -/
def crc16_ccitt (m : List Nat) : List Nat :=
  [crc16 m / 256, crc16 m % 256]

/-- Constant `NULL_CRC16 = b"\xff\xff"`, the checksum of `b""`
(`memory.py` line 31). -/
def NULL_CRC16 : List Nat := [0xff, 0xff]

/-! ### Header codec (`memory.py` lines 60-148) -/

/-- Error taxonomy of `Header.from_bytes` (`memory.py` lines 34-43). -/
inductive HeaderErr where
  | invalidMagic
  | invalidVersion
  | invalidChecksum
deriving DecidableEq, Repr

/-- On-toolhead memory data header (`memory.py` lines 60-93).
Field defaults follow the dataclass defaults; the generated fields
`uid` (from `uuid.uuid1`) and `timestamp` (from `timestamp_utc`) have
no defaults here and are supplied by the caller. -/
structure Header where
  magic : List Nat := [0xc0, 0xc0]
  version : Nat := 1
  uid : List Nat
  timestamp : Nat
  data_page : Nat := 0
  data_length : Nat := 0
  data_checksum : List Nat := NULL_CRC16
deriving DecidableEq, Repr

/-- Construct `Header()` with fresh generated `uid` and `timestamp`
(the two `default_factory` fields, `memory.py` lines 88-90). -/
def Header.fresh (uid : List Nat) (ts : Nat) : Header :=
  { uid := uid, timestamp := ts }

/-- Decode a 16-bit little-endian value (struct format `H`) from the
first two bytes of a list. -/
def dec16 : List Nat → Nat
  | b0 :: b1 :: _ => b0 + 256 * b1
  | [b0] => b0
  | [] => 0

/-- Decode a 32-bit little-endian value (struct format `I`) from the
first four bytes of a list. -/
def dec32 : List Nat → Nat
  | b0 :: b1 :: b2 :: b3 :: _ => b0 + 256 * b1 + 65536 * b2 + 16777216 * b3
  | _ => 0

/-- Encode a 16-bit little-endian value (struct format `H`). -/
def enc16 (n : Nat) : List Nat :=
  [n % 256, n / 256 % 256]

/-- Encode a 32-bit little-endian value (struct format `I`). -/
def enc32 (n : Nat) : List Nat :=
  [n % 256, n / 256 % 256, n / 65536 % 256, n / 16777216 % 256]

/-- Body of `Header.struct.pack` without the final header-checksum
field: `<2s B 16s xx I B H 2s` (`memory.py` lines 69-80).  The two `x`
padding bytes pack as zeros. -/
def headerBody (h : Header) : List Nat :=
  h.magic ++ [h.version] ++ h.uid ++ [0, 0] ++ enc32 h.timestamp
    ++ [h.data_page] ++ enc16 h.data_length ++ h.data_checksum

/-- Encode a header: pack all fields with `NULL_CRC16` as the
header-checksum placeholder, then replace the last two bytes with the
CRC of everything before them (`memory.py` lines 125-136,
`dat[:-2] + bytes(crc16_ccitt(dat[:-2]))`). -/
def Header.to_bytes (h : Header) : List Nat :=
  let dat := headerBody h ++ NULL_CRC16
  dat.take (dat.length - 2) ++ crc16_ccitt (dat.take (dat.length - 2))

/-- Decode a header (`memory.py` lines 95-123): check magic, then
version, then the trailing checksum against the CRC of the preceding
bytes, then unpack the fixed little-endian layout. -/
def Header.from_bytes (v : List Nat) : Except HeaderErr Header :=
  if v.take 2 ≠ [0xc0, 0xc0] then .error .invalidMagic
  else if (v.drop 2).headD 0 ≠ 1 then .error .invalidVersion
  else if crc16_ccitt (v.take (v.length - 2)) ≠ v.drop (v.length - 2) then
    .error .invalidChecksum
  else
    .ok { magic := v.take 2
          version := (v.drop 2).headD 0
          uid := (v.drop 3).take 16
          timestamp := dec32 (v.drop 21)
          data_page := (v.drop 25).headD 0
          data_length := dec16 (v.drop 26)
          data_checksum := (v.drop 28).take 2 }

/-- Return a new `Header` updated for the provided data
(`memory.py` lines 138-145); `now` stands for `timestamp_utc()`. -/
def Header.update (h : Header) (now : Nat) (data : List Nat) : Header :=
  { h with
    timestamp := now
    data_length := data.length
    data_checksum := crc16_ccitt data }

/-- Payload base address, `256 * (data_page + 1)`
(`memory.py` lines 147-148). -/
def Header.get_data_address (h : Header) : Nat :=
  256 * (h.data_page + 1)

/-- Well-formedness of a header's fields: exactly the value ranges that
`Header()` establishes, `Header.update` preserves and `struct.pack`
requires. -/
def Header.wf (h : Header) : Prop :=
  h.magic = [0xc0, 0xc0] ∧ h.version = 1 ∧ h.uid.length = 16 ∧
    h.timestamp < 2 ^ 32 ∧ h.data_page < 256 ∧ h.data_length < 2 ^ 16 ∧
    h.data_checksum.length = 2

instance (h : Header) : Decidable h.wf := by
  unfold Header.wf; infer_instance

example : crc16 [] = 0xffff := by decide
example : crc16_ccitt [] = NULL_CRC16 := by decide
example : crc16_ccitt [0x42] = [137, 118] := by decide

end CocoaMem

namespace CocoaMem

/-! ### Structural lemmas about the encoding -/

lemma exists_two_of_length {l : List Nat} (h : l.length = 2) :
    ∃ a b, l = [a, b] :=
  match l, h with
  | [a, b], _ => ⟨a, b, rfl⟩

lemma crc16_ccitt_length (m : List Nat) : (crc16_ccitt m).length = 2 := rfl

/-- Encoding always ends with the CRC of everything before it: the
`dat[:-2]` slice is exactly the 30-byte packed body. -/
lemma to_bytes_eq_body (h : Header) :
    h.to_bytes = headerBody h ++ crc16_ccitt (headerBody h) := by
  have h2 : (headerBody h ++ NULL_CRC16).length - 2 = (headerBody h).length := by
    simp [NULL_CRC16]
  simp only [Header.to_bytes]
  rw [h2, List.take_left]

lemma headerBody_explicit (uid : List Nat) (ts pg dl c0 c1 : Nat) :
    headerBody ⟨[0xc0, 0xc0], 1, uid, ts, pg, dl, [c0, c1]⟩ =
      0xc0 :: 0xc0 :: 1 :: (uid ++
        (0 :: 0 :: ts % 256 :: ts / 256 % 256 :: ts / 65536 % 256 ::
          ts / 16777216 % 256 :: pg :: dl % 256 :: dl / 256 % 256 ::
            c0 :: c1 :: [])) := by
  simp [headerBody, enc32, enc16]

theorem from_bytes_to_bytes_aux (uid : List Nat) (ts pg dl c0 c1 : Nat)
    (h16 : uid.length = 16) (hts : ts < 2 ^ 32) (hdl : dl < 2 ^ 16) :
    Header.from_bytes
        (Header.to_bytes ⟨[0xc0, 0xc0], 1, uid, ts, pg, dl, [c0, c1]⟩) =
      .ok ⟨[0xc0, 0xc0], 1, uid, ts, pg, dl, [c0, c1]⟩ := by
  have hB := headerBody_explicit uid ts pg dl c0 c1
  have hBlen :
      (headerBody ⟨[0xc0, 0xc0], 1, uid, ts, pg, dl, [c0, c1]⟩).length = 30 := by
    rw [hB]; simp [h16]
  have hv : (Header.to_bytes ⟨[0xc0, 0xc0], 1, uid, ts, pg, dl, [c0, c1]⟩) =
      0xc0 :: 0xc0 :: 1 :: (uid ++
        ((0 :: 0 :: ts % 256 :: ts / 256 % 256 :: ts / 65536 % 256 ::
          ts / 16777216 % 256 :: pg :: dl % 256 :: dl / 256 % 256 ::
            c0 :: c1 :: []) ++
          crc16_ccitt (headerBody ⟨[0xc0, 0xc0], 1, uid, ts, pg, dl, [c0, c1]⟩))) := by
    rw [to_bytes_eq_body, hB]
    simp [List.append_assoc]
  set v := Header.to_bytes ⟨[0xc0, 0xc0], 1, uid, ts, pg, dl, [c0, c1]⟩ with hvdef
  set C := crc16_ccitt (headerBody ⟨[0xc0, 0xc0], 1, uid, ts, pg, dl, [c0, c1]⟩)
    with hCdef
  obtain ⟨q0, q1, hq⟩ := exists_two_of_length (crc16_ccitt_length
    (headerBody ⟨[0xc0, 0xc0], 1, uid, ts, pg, dl, [c0, c1]⟩))
  have hvlen : v.length = 32 := by
    rw [hv, hCdef, hq]; simp [h16]
  have htake2 : v.take 2 = [0xc0, 0xc0] := by rw [hv]; rfl
  have hdrop2 : (v.drop 2).headD 0 = 1 := by rw [hv]; rfl
  have htake30 : v.take 30 = headerBody ⟨[0xc0, 0xc0], 1, uid, ts, pg, dl, [c0, c1]⟩ := by
    rw [hvdef, to_bytes_eq_body, ← hBlen, List.take_left]
  have hdrop30 : v.drop 30 = C := by
    rw [hvdef, to_bytes_eq_body, ← hBlen, List.drop_left, hCdef]
  have hd3 : v.drop 3 = uid ++
      ((0 :: 0 :: ts % 256 :: ts / 256 % 256 :: ts / 65536 % 256 ::
        ts / 16777216 % 256 :: pg :: dl % 256 :: dl / 256 % 256 ::
          c0 :: c1 :: []) ++ C) := by
    rw [hv]; rfl
  have hd19 : v.drop 19 =
      (0 :: 0 :: ts % 256 :: ts / 256 % 256 :: ts / 65536 % 256 ::
        ts / 16777216 % 256 :: pg :: dl % 256 :: dl / 256 % 256 ::
          c0 :: c1 :: []) ++ C := by
    rw [show (19 : Nat) = 3 + 16 from rfl, ← List.drop_drop, hd3, ← h16,
      List.drop_left]
  have hd21 : v.drop 21 = ts % 256 :: ts / 256 % 256 :: ts / 65536 % 256 ::
      ts / 16777216 % 256 :: pg :: dl % 256 :: dl / 256 % 256 ::
        c0 :: c1 :: C := by
    rw [show (21 : Nat) = 19 + 2 from rfl, ← List.drop_drop, hd19]; rfl
  have hd25 : v.drop 25 = pg :: dl % 256 :: dl / 256 % 256 :: c0 :: c1 :: C := by
    rw [show (25 : Nat) = 21 + 4 from rfl, ← List.drop_drop, hd21]; rfl
  have hd26 : v.drop 26 = dl % 256 :: dl / 256 % 256 :: c0 :: c1 :: C := by
    rw [show (26 : Nat) = 25 + 1 from rfl, ← List.drop_drop, hd25]; rfl
  have hd28 : v.drop 28 = c0 :: c1 :: C := by
    rw [show (28 : Nat) = 26 + 2 from rfl, ← List.drop_drop, hd26]; rfl
  have hcond : ¬ (crc16_ccitt (v.take (v.length - 2)) ≠ v.drop (v.length - 2)) := by
    rw [hvlen, show (32 : Nat) - 2 = 30 from rfl, htake30, hdrop30, hCdef]
    simp
  simp only [Header.from_bytes]
  rw [if_neg (by simp only [ne_eq, not_not]; exact htake2),
    if_neg (by simp only [ne_eq, not_not]; exact hdrop2), if_neg hcond]
  simp only [Except.ok.injEq, Header.mk.injEq]
  refine ⟨htake2, hdrop2, ?_, ?_, ?_, ?_, ?_⟩
  · rw [hd3, ← h16, List.take_left]
  · rw [hd21]; simp only [dec16, dec32]; omega
  · rw [hd25]; rfl
  · rw [hd26]; simp only [dec16]; omega
  · rw [hd28]; rfl

/-- Decoding inverts encoding on every well-formed header. -/
theorem from_bytes_to_bytes (h : Header) (hwf : h.wf) :
    Header.from_bytes h.to_bytes = .ok h := by
  obtain ⟨mg, ver, u, t, p, dl, ck⟩ := h
  obtain ⟨h1, h2, h3, h4, h5, h6, h7⟩ := hwf
  simp only at h1 h2 h3 h4 h5 h6 h7
  subst h1 h2
  obtain ⟨a, b, rfl⟩ := exists_two_of_length h7
  exact from_bytes_to_bytes_aux u t p dl a b h3 h4 h6

lemma fresh_wf (uid : List Nat) (ts : Nat) (h16 : uid.length = 16)
    (hts : ts < 2 ^ 32) : (Header.fresh uid ts).wf := by
  exact ⟨rfl, rfl, h16, hts, by norm_num [Header.fresh], by norm_num [Header.fresh], rfl⟩

lemma update_wf (h : Header) (now : Nat) (d : List Nat) (hwf : h.wf)
    (hnow : now < 2 ^ 32) (hd : d.length < 2 ^ 16) : (h.update now d).wf := by
  obtain ⟨h1, h2, h3, h4, h5, h6, h7⟩ := hwf
  exact ⟨h1, h2, h3, hnow, h5, hd, rfl⟩

end CocoaMem

namespace CocoaMem

lemma headerBody_length (h : Header) (hwf : h.wf) :
    (headerBody h).length = 30 := by
  obtain ⟨h1, h2, h3, h4, h5, h6, h7⟩ := hwf
  simp [headerBody, enc32, enc16, h1, h3, h7]

/-- C2: for every header produced by fresh initialization (`Header()`)
or by `Header.update` on a well-formed header with a payload whose
length fits in 16 bits, decoding the encoding gives back an equal
header, field for field. -/
theorem header_roundtrip_c2 (uid : List Nat) (ts now : Nat) (d : List Nat)
    (h16 : uid.length = 16) (hts : ts < 2 ^ 32) (hnow : now < 2 ^ 32)
    (hd : d.length < 2 ^ 16) :
    Header.from_bytes (Header.fresh uid ts).to_bytes = .ok (Header.fresh uid ts) ∧
      (∀ h : Header, h.wf →
        Header.from_bytes ((h.update now d).to_bytes) = .ok (h.update now d)) :=
  ⟨from_bytes_to_bytes _ (fresh_wf uid ts h16 hts),
    fun h hwf => from_bytes_to_bytes _ (update_wf h now d hwf hnow hd)⟩

/-- Witness for C2 at a concrete fresh header and empty payload. -/
theorem header_roundtrip_c2_witness :
    (List.replicate 16 0).length = 16 ∧ (0 : Nat) < 2 ^ 32 ∧
      ([] : List Nat).length < 2 ^ 16 ∧
      (Header.from_bytes (Header.fresh (List.replicate 16 0) 0).to_bytes =
          .ok (Header.fresh (List.replicate 16 0) 0) ∧
        (∀ h : Header, h.wf →
          Header.from_bytes ((h.update 0 []).to_bytes) = .ok (h.update 0 []))) :=
  ⟨by decide, by decide, by decide,
    header_roundtrip_c2 (List.replicate 16 0) 0 0 []
      (by decide) (by decide) (by decide) (by decide)⟩

/-- C8: `Header.update` sets `data_length` to the payload length,
`data_checksum` to the payload checksum and `timestamp` to the supplied
current time, carrying `magic`, `version`, `uid` and `data_page` over
unchanged; headers are immutable values, so the argument itself is
untouched. -/
theorem header_update_fields_c8 (h : Header) (now : Nat) (d : List Nat) :
    (h.update now d).data_length = d.length ∧
      (h.update now d).data_checksum = crc16_ccitt d ∧
      (h.update now d).timestamp = now ∧
      (h.update now d).magic = h.magic ∧
      (h.update now d).version = h.version ∧
      (h.update now d).uid = h.uid ∧
      (h.update now d).data_page = h.data_page :=
  ⟨rfl, rfl, rfl, rfl, rfl, rfl, rfl⟩

/-- Modelled from the spec's words, for comparison against the code:
the "self-referential two-pass scheme" of §6 read literally — the
header checksum computed over the whole 32-byte packed buffer with the
`NULL_CRC16` placeholder included in the checksummed range. -/
def specTwoPassChecksum (h : Header) : List Nat :=
  crc16_ccitt (headerBody h ++ NULL_CRC16)

lemma crc16_eval_body30 :
    crc16 [192, 192, 1, 0, 0, 0, 0, 0, 0, 0, 0, 0, 0, 0, 0, 0, 0, 0, 0, 0, 0, 0, 0, 0, 0, 0, 0, 0, 255, 255] = 63896 := by
  simp only [crc16, crcList, List.foldl]
  rw [show crcByte 65535 192 = 14524 from by decide]
  rw [show crcByte 14524 192 = 53783 from by decide]
  rw [show crcByte 53783 1 = 60446 from by decide]
  rw [show crcByte 60446 0 = 8866 from by decide]
  rw [show crcByte 8866 0 = 42528 from by decide]
  rw [show crcByte 42528 0 = 62764 from by decide]
  rw [show crcByte 62764 0 = 37818 from by decide]
  rw [show crcByte 37818 0 = 2522 from by decide]
  rw [show crcByte 2522 0 = 19241 from by decide]
  rw [show crcByte 19241 0 = 53423 from by decide]
  rw [show crcByte 53423 0 = 25725 from by decide]
  rw [show crcByte 25725 0 = 20770 from by decide]
  rw [show crcByte 20770 0 = 26836 from by decide]
  rw [show crcByte 26836 0 = 14766 from by decide]
  rw [show crcByte 14766 0 = 2426 from by decide]
  rw [show crcByte 2426 0 = 60201 from by decide]
  rw [show crcByte 60201 0 = 25925 from by decide]
  rw [show crcByte 25925 0 = 30979 from by decide]
  rw [show crcByte 30979 0 = 60606 from by decide]
  rw [show crcByte 60606 0 = 33442 from by decide]
  rw [show crcByte 33442 0 = 5066 from by decide]
  rw [show crcByte 5066 0 = 59474 from by decide]
  rw [show crcByte 59474 0 = 11814 from by decide]
  rw [show crcByte 11814 0 = 58284 from by decide]
  rw [show crcByte 58284 0 = 24909 from by decide]
  rw [show crcByte 24909 0 = 12679 from by decide]
  rw [show crcByte 12679 0 = 41330 from by decide]
  rw [show crcByte 41330 0 = 55243 from by decide]
  rw [show crcByte 55243 255 = 28266 from by decide]
  rw [show crcByte 28266 255 = 63896 from by decide]

lemma crc16_eval_body32 :
    crc16 [192, 192, 1, 0, 0, 0, 0, 0, 0, 0, 0, 0, 0, 0, 0, 0, 0, 0, 0, 0, 0, 0, 0, 0, 0, 0, 0, 0, 255, 255, 255, 255] = 46823 := by
  simp only [crc16, crcList, List.foldl]
  rw [show crcByte 65535 192 = 14524 from by decide]
  rw [show crcByte 14524 192 = 53783 from by decide]
  rw [show crcByte 53783 1 = 60446 from by decide]
  rw [show crcByte 60446 0 = 8866 from by decide]
  rw [show crcByte 8866 0 = 42528 from by decide]
  rw [show crcByte 42528 0 = 62764 from by decide]
  rw [show crcByte 62764 0 = 37818 from by decide]
  rw [show crcByte 37818 0 = 2522 from by decide]
  rw [show crcByte 2522 0 = 19241 from by decide]
  rw [show crcByte 19241 0 = 53423 from by decide]
  rw [show crcByte 53423 0 = 25725 from by decide]
  rw [show crcByte 25725 0 = 20770 from by decide]
  rw [show crcByte 20770 0 = 26836 from by decide]
  rw [show crcByte 26836 0 = 14766 from by decide]
  rw [show crcByte 14766 0 = 2426 from by decide]
  rw [show crcByte 2426 0 = 60201 from by decide]
  rw [show crcByte 60201 0 = 25925 from by decide]
  rw [show crcByte 25925 0 = 30979 from by decide]
  rw [show crcByte 30979 0 = 60606 from by decide]
  rw [show crcByte 60606 0 = 33442 from by decide]
  rw [show crcByte 33442 0 = 5066 from by decide]
  rw [show crcByte 5066 0 = 59474 from by decide]
  rw [show crcByte 59474 0 = 11814 from by decide]
  rw [show crcByte 11814 0 = 58284 from by decide]
  rw [show crcByte 58284 0 = 24909 from by decide]
  rw [show crcByte 24909 0 = 12679 from by decide]
  rw [show crcByte 12679 0 = 41330 from by decide]
  rw [show crcByte 41330 0 = 55243 from by decide]
  rw [show crcByte 55243 255 = 28266 from by decide]
  rw [show crcByte 28266 255 = 63896 from by decide]
  rw [show crcByte 63896 255 = 63686 from by decide]
  rw [show crcByte 63686 255 = 46823 from by decide]

/-- C5 counterexample: the stored header checksum is not the checksum
of the 32-byte buffer including the placeholder; `to_bytes` checksums
only the 30 bytes before the checksum field. -/
theorem header_checksum_c5_counterexample :
    (Header.fresh (List.replicate 16 0) 0).to_bytes.drop 30 ≠
      specTwoPassChecksum (Header.fresh (List.replicate 16 0) 0) := by
  have hwf : (Header.fresh (List.replicate 16 0) 0).wf := by decide
  have hdp : (Header.fresh (List.replicate 16 0) 0).to_bytes.drop 30 =
      crc16_ccitt (headerBody (Header.fresh (List.replicate 16 0) 0)) := by
    rw [to_bytes_eq_body, ← headerBody_length _ hwf, List.drop_left]
  have hbody : headerBody (Header.fresh (List.replicate 16 0) 0) =
      [192, 192, 1, 0, 0, 0, 0, 0, 0, 0, 0, 0, 0, 0, 0, 0, 0, 0, 0, 0, 0, 0, 0, 0, 0, 0, 0, 0, 255, 255] := by decide
  have hb2 : ([192, 192, 1, 0, 0, 0, 0, 0, 0, 0, 0, 0, 0, 0, 0, 0, 0, 0, 0, 0, 0, 0, 0, 0, 0, 0, 0, 0, 255, 255] : List Nat) ++ NULL_CRC16 =
      [192, 192, 1, 0, 0, 0, 0, 0, 0, 0, 0, 0, 0, 0, 0, 0, 0, 0, 0, 0, 0, 0, 0, 0, 0, 0, 0, 0, 255, 255, 255, 255] := by decide
  rw [hdp, specTwoPassChecksum, hbody, hb2]
  simp only [crc16_ccitt, crc16_eval_body30, crc16_eval_body32]
  decide

/-- C5 (amended): the placeholder is packed but excluded from the
computation — the stored checksum in the last two bytes of `to_bytes`
is the CRC of the 30 preceding bytes (exactly what `from_bytes`
verifies), and the placeholder itself is the fixed empty-sequence CRC
constant. -/
theorem header_checksum_c5 (h : Header) (hwf : h.wf) :
    h.to_bytes.drop 30 = crc16_ccitt (h.to_bytes.take 30) ∧
      h.to_bytes.take 30 = headerBody h ∧ crc16_ccitt [] = NULL_CRC16 := by
  have hlen := headerBody_length h hwf
  have ht : h.to_bytes.take 30 = headerBody h := by
    rw [to_bytes_eq_body, ← hlen, List.take_left]
  have hdp : h.to_bytes.drop 30 = crc16_ccitt (headerBody h) := by
    rw [to_bytes_eq_body, ← hlen, List.drop_left]
  exact ⟨by rw [hdp, ht], ht, by decide⟩

/-- Witness for C5 (amended) at a concrete fresh header. -/
theorem header_checksum_c5_witness :
    (Header.fresh (List.replicate 16 0) 0).wf ∧
      ((Header.fresh (List.replicate 16 0) 0).to_bytes.drop 30 =
          crc16_ccitt ((Header.fresh (List.replicate 16 0) 0).to_bytes.take 30) ∧
        (Header.fresh (List.replicate 16 0) 0).to_bytes.take 30 =
          headerBody (Header.fresh (List.replicate 16 0) 0) ∧
        crc16_ccitt [] = NULL_CRC16) :=
  ⟨by decide, header_checksum_c5 _ (by decide)⟩

/-- C6: on a 32-byte input, `from_bytes` fails with `InvalidMagic` iff
the first two bytes differ from the magic constant; otherwise with
`InvalidVersion` iff the third byte is not the supported version;
otherwise with `InvalidChecksum` iff the trailing two bytes differ from
the checksum of the preceding 30 bytes; otherwise it succeeds — the
checks apply in exactly that order. -/
theorem from_bytes_order_c6 (v : List Nat) (hlen : v.length = 32) :
    (Header.from_bytes v = .error .invalidMagic ↔ v.take 2 ≠ [0xc0, 0xc0]) ∧
      (Header.from_bytes v = .error .invalidVersion ↔
        (v.take 2 = [0xc0, 0xc0] ∧ (v.drop 2).headD 0 ≠ 1)) ∧
      (Header.from_bytes v = .error .invalidChecksum ↔
        (v.take 2 = [0xc0, 0xc0] ∧ (v.drop 2).headD 0 = 1 ∧
          crc16_ccitt (v.take 30) ≠ v.drop 30)) ∧
      ((∃ h, Header.from_bytes v = .ok h) ↔
        (v.take 2 = [0xc0, 0xc0] ∧ (v.drop 2).headD 0 = 1 ∧
          crc16_ccitt (v.take 30) = v.drop 30)) := by
  have h30 : v.length - 2 = 30 := by omega
  simp only [Header.from_bytes, h30]
  by_cases h1 : v.take 2 = [0xc0, 0xc0] <;>
    by_cases h2 : (v.drop 2).headD 0 = 1 <;>
      by_cases h3 : crc16_ccitt (v.take 30) = v.drop 30 <;>
        simp only [List.headD_eq_head?, List.head?_drop] at h2 <;>
          simp [h1, h2, h3]

/-- Witness for C6 at the encoding of a concrete fresh header. -/
theorem from_bytes_order_c6_witness :
    (Header.fresh (List.replicate 16 0) 0).to_bytes.length = 32 ∧
      ((∃ h, Header.from_bytes (Header.fresh (List.replicate 16 0) 0).to_bytes
            = .ok h) ↔
        ((Header.fresh (List.replicate 16 0) 0).to_bytes.take 2 = [0xc0, 0xc0] ∧
          ((Header.fresh (List.replicate 16 0) 0).to_bytes.drop 2).headD 0 = 1 ∧
          crc16_ccitt ((Header.fresh (List.replicate 16 0) 0).to_bytes.take 30) =
            (Header.fresh (List.replicate 16 0) 0).to_bytes.drop 30)) :=
  ⟨by decide, (from_bytes_order_c6 _ (by decide)).2.2.2⟩

end CocoaMem

namespace CocoaMem

/-! ### Lifecycle controller `CocoaMemory` (`memory.py` lines 151-310) -/

/-- Error conditions surfaced by the controller: `MemoryNotConnected`,
the `KeyError` raised by `get`, a device `CommandError`, and the
crash that an operation on an absent header/record would be. -/
inductive MemErr where
  | notConnected
  | keyNotFound
  | deviceError
  | invalidState
deriving DecidableEq, Repr

/-- Key-value record (the Python `dict` cached as `self.config`),
modelled as an association list with unique keys. -/
abbrev Record (α : Type) := List (String × α)

/-- Dictionary lookup, `config.get(key)`. -/
def rlookup {α : Type} : Record α → String → Option α
  | [], _ => none
  | (k', v) :: t, k => if k' = k then some v else rlookup t k

/-- Membership test, `key in config`. -/
def rhas {α : Type} (c : Record α) (k : String) : Bool :=
  (rlookup c k).isSome

/-- Update-or-insert, `config[key] = val`. -/
def rset {α : Type} : Record α → String → α → Record α
  | [], k, v => [(k, v)]
  | (k', v') :: t, k, v => if k' = k then (k, v) :: t else (k', v') :: rset t k v

/-- Key removal, `del config[key]`. -/
def rremove {α : Type} : Record α → String → Record α
  | [], _ => []
  | (k', v') :: t, k => if k' = k then rremove t k else (k', v') :: rremove t k

/-- Device model (the external `Memory` collaborator): a read map, the
ordered trace of successful writes, and a fault oracle `failAt` that
makes the n-th write attempt raise a device error. -/
structure Dev where
  readFn : Nat → Nat → Except Unit (List Nat)
  writes : List (Nat × List Nat) := []
  wcount : Nat := 0
  failAt : Nat → Bool := fun _ => false

/-- One `memory.write(addr, data)` call: fails if the fault oracle says
so, otherwise appends to the write trace. -/
def devWrite (d : Dev) (addr : Nat) (data : List Nat) : Except Unit Dev :=
  if d.failAt d.wcount then .error ()
  else .ok { d with writes := d.writes ++ [(addr, data)], wcount := d.wcount + 1 }

/-- State of a `CocoaMemory` controller instance: `connected`,
`header`, `config`, `_last_header`, `_last_config`
(`memory.py` lines 175-177). -/
structure Ctl (α : Type) where
  connected : Bool := false
  header : Option Header := none
  config : Option (Record α) := none
  last_header : Option Header := none
  last_config : Option (Record α) := none
deriving DecidableEq, Repr

/-- Result of one controller step: the error it raised (if any, with
assignments made before the raise kept), the controller state and the
device afterwards. -/
structure StepOut (α : Type) where
  err : Option MemErr
  ctl : Ctl α
  dev : Dev

/-- `CocoaMemory.save` (`memory.py` lines 263-271): serialize the
record (`mdumps` stands for `msgpack.dumps`), build the updated header,
write the payload at the data address, then write the encoded header at
address 0, and only then install the new header and refresh the
last-persisted snapshot (`copy.deepcopy` is the identity on values).
An exception from either write leaves the controller state as it was. -/
def save {α : Type} (now : Nat) (mdumps : Record α → List Nat)
    (st : Ctl α) (dev : Dev) : StepOut α :=
  match st.header, st.config with
  | some h, some cfg =>
    let data := mdumps cfg
    let nh := h.update now data
    match devWrite dev nh.get_data_address data with
    | .error _ => ⟨some .deviceError, st, dev⟩
    | .ok dev1 =>
      match devWrite dev1 0 nh.to_bytes with
      | .error _ => ⟨some .deviceError, st, dev1⟩
      | .ok dev2 =>
        ⟨none, { st with header := some nh, last_config := some cfg }, dev2⟩
  | _, _ => ⟨some .invalidState, st, dev⟩

/-- C3: `save` writes the serialized payload at the payload address
strictly before the encoded new header at address 0, and only when both
writes succeed does it make the new header current and refresh the
last-persisted snapshot to (a deep copy of) the current record; if
either write raises, the in-memory current header and last-persisted
snapshot are left unchanged. -/
theorem save_order_c3 {α : Type} (now : Nat) (mdumps : Record α → List Nat)
    (st : Ctl α) (dev : Dev) (hd : Header) (cfg : Record α)
    (hh : st.header = some hd) (hc : st.config = some cfg) :
    ((save now mdumps st dev).err = none →
      (save now mdumps st dev).dev.writes = dev.writes ++
        [((hd.update now (mdumps cfg)).get_data_address, mdumps cfg),
          (0, (hd.update now (mdumps cfg)).to_bytes)] ∧
      (save now mdumps st dev).ctl.header = some (hd.update now (mdumps cfg)) ∧
      (save now mdumps st dev).ctl.last_config = some cfg ∧
      (save now mdumps st dev).ctl.connected = st.connected) ∧
    ((save now mdumps st dev).err ≠ none → (save now mdumps st dev).ctl = st) := by
  simp only [save, hh, hc, devWrite]
  by_cases f0 : dev.failAt dev.wcount <;> simp only [f0, if_true, if_false]
  · simp
  · by_cases f1 : dev.failAt (dev.wcount + 1) <;> simp [f1]

/-- Concrete fixtures for controller witnesses. -/
def stC3 : Ctl Nat :=
  { connected := true, header := some (Header.fresh (List.replicate 16 0) 0),
    config := some ([] : Record Nat) }

def devC3 : Dev := { readFn := fun _ _ => .error () }

def dumpC3 : Record Nat → List Nat := fun _ => [1, 2]

/-- Witness for C3: a concrete connected state and fault-free device. -/
theorem save_order_c3_witness :
    stC3.header = some (Header.fresh (List.replicate 16 0) 0) ∧
      stC3.config = some ([] : Record Nat) ∧
      (((save 3 dumpC3 stC3 devC3).err = none →
          (save 3 dumpC3 stC3 devC3).dev.writes = devC3.writes ++
            [(((Header.fresh (List.replicate 16 0) 0).update 3
                  (dumpC3 [])).get_data_address, dumpC3 []),
              (0, ((Header.fresh (List.replicate 16 0) 0).update 3
                  (dumpC3 [])).to_bytes)] ∧
          (save 3 dumpC3 stC3 devC3).ctl.header =
            some ((Header.fresh (List.replicate 16 0) 0).update 3 (dumpC3 [])) ∧
          (save 3 dumpC3 stC3 devC3).ctl.last_config = some ([] : Record Nat) ∧
          (save 3 dumpC3 stC3 devC3).ctl.connected = stC3.connected) ∧
        ((save 3 dumpC3 stC3 devC3).err ≠ none →
          (save 3 dumpC3 stC3 devC3).ctl = stC3)) :=
  ⟨rfl, rfl,
    save_order_c3 3 dumpC3 stC3 devC3 (Header.fresh (List.replicate 16 0) 0) []
      rfl rfl⟩

end CocoaMem

namespace CocoaMem

/-! ### Key-value façade (`memory.py` lines 273-300) -/

/-- Result of one façade call: the error raised (if any), the returned
value (if any), and the controller state afterwards. -/
structure OpOut (α β : Type) where
  err : Option MemErr
  ret : Option β
  ctl : Ctl α

/-- `CocoaMemory.has` (`memory.py` lines 273-276). -/
def hasOp {α : Type} (st : Ctl α) (k : String) : OpOut α Bool :=
  if st.connected = false then ⟨some .notConnected, none, st⟩
  else match st.config with
    | some c => ⟨none, some (rhas c k), st⟩
    | none => ⟨some .invalidState, none, st⟩

/-- `CocoaMemory.get` (`memory.py` lines 278-284); `default = none`
models the `...` sentinel of an omitted default. -/
def getOp {α : Type} (st : Ctl α) (k : String) (default : Option α) :
    OpOut α α :=
  if st.connected = false then ⟨some .notConnected, none, st⟩
  else match st.config with
    | some c =>
      match rlookup c k, default with
      | some v, _ => ⟨none, some v, st⟩
      | none, some d => ⟨none, some d, st⟩
      | none, none => ⟨some .keyNotFound, none, st⟩
    | none => ⟨some .invalidState, none, st⟩

/-- `CocoaMemory.set` (`memory.py` lines 286-289). -/
def setOp {α : Type} (st : Ctl α) (k : String) (v : α) : OpOut α Unit :=
  if st.connected = false then ⟨some .notConnected, none, st⟩
  else match st.config with
    | some c => ⟨none, some (), { st with config := some (rset c k v) }⟩
    | none => ⟨some .invalidState, none, st⟩

/-- `CocoaMemory.setdefault` (`memory.py` lines 291-294); Python's
`dict.setdefault` appends a missing key with the default and returns
the stored value. -/
def setdefaultOp {α : Type} (st : Ctl α) (k : String) (d : α) : OpOut α α :=
  if st.connected = false then ⟨some .notConnected, none, st⟩
  else match st.config with
    | some c =>
      match rlookup c k with
      | some v => ⟨none, some v, st⟩
      | none => ⟨none, some d, { st with config := some (c ++ [(k, d)]) }⟩
    | none => ⟨some .invalidState, none, st⟩

/-- `CocoaMemory.delete` (`memory.py` lines 296-300): removes the key
only if present, silently does nothing otherwise. -/
def deleteOp {α : Type} (st : Ctl α) (k : String) : OpOut α Unit :=
  if st.connected = false then ⟨some .notConnected, none, st⟩
  else match st.config with
    | some c =>
      ⟨none, some (), { st with config := some (if rhas c k then rremove c k else c) }⟩
    | none => ⟨some .invalidState, none, st⟩

/-- C9: every façade operation fails with `NotConnected` when the
controller is not connected, leaving the state unchanged; while
connected, `get` with no default fails with the key-not-found condition
on a missing key, and `get` with an explicit default returns the
default instead of failing. -/
theorem facade_gating_c9 {α : Type} (st1 st2 : Ctl α) (k : String) (v d : α)
    (c : Record α) (h1 : st1.connected = false) (h2 : st2.connected = true)
    (h3 : st2.config = some c) (h4 : rlookup c k = none) :
    hasOp st1 k = ⟨some .notConnected, none, st1⟩ ∧
      getOp st1 k none = ⟨some .notConnected, none, st1⟩ ∧
      getOp st1 k (some d) = ⟨some .notConnected, none, st1⟩ ∧
      setOp st1 k v = ⟨some .notConnected, none, st1⟩ ∧
      setdefaultOp st1 k d = ⟨some .notConnected, none, st1⟩ ∧
      deleteOp st1 k = ⟨some .notConnected, none, st1⟩ ∧
      getOp st2 k none = ⟨some .keyNotFound, none, st2⟩ ∧
      getOp st2 k (some d) = ⟨none, some d, st2⟩ := by
  simp [hasOp, getOp, setOp, setdefaultOp, deleteOp, h1, h2, h3, h4]

/-- Fixtures for the façade witnesses. -/
def stDisc : Ctl Nat := {}

def stConn : Ctl Nat := { connected := true, config := some ([] : Record Nat) }

/-- Witness for C9 at concrete disconnected and connected states. -/
theorem facade_gating_c9_witness :
    stDisc.connected = false ∧ stConn.connected = true ∧
      stConn.config = some ([] : Record Nat) ∧
      rlookup ([] : Record Nat) "k" = none ∧
      (hasOp stDisc "k" = ⟨some .notConnected, none, stDisc⟩ ∧
        getOp stDisc "k" none = ⟨some .notConnected, none, stDisc⟩ ∧
        getOp stDisc "k" (some 1) = ⟨some .notConnected, none, stDisc⟩ ∧
        setOp stDisc "k" 0 = ⟨some .notConnected, none, stDisc⟩ ∧
        setdefaultOp stDisc "k" 1 = ⟨some .notConnected, none, stDisc⟩ ∧
        deleteOp stDisc "k" = ⟨some .notConnected, none, stDisc⟩ ∧
        getOp stConn "k" none = ⟨some .keyNotFound, none, stConn⟩ ∧
        getOp stConn "k" (some 1) = ⟨none, some 1, stConn⟩) :=
  ⟨rfl, rfl, rfl, rfl, facade_gating_c9 stDisc stConn "k" 0 1 [] rfl rfl rfl rfl⟩

/-- C10: while connected, `delete` of an absent key raises no error (in
particular not the key-not-found condition) and leaves the whole
controller state — current record and last-persisted snapshot —
unchanged. -/
theorem delete_absent_c10 {α : Type} (st : Ctl α) (k : String) (c : Record α)
    (hconn : st.connected = true) (hcfg : st.config = some c)
    (habs : rlookup c k = none) :
    deleteOp st k = ⟨none, some (), st⟩ := by
  obtain ⟨cn, hh, cf, lh, lc⟩ := st
  simp only at hconn hcfg
  subst hconn hcfg
  simp [deleteOp, rhas, habs]

/-- Witness for C10: deleting a key absent from a concrete connected
state is a silent no-op. -/
theorem delete_absent_c10_witness :
    stConn.connected = true ∧ stConn.config = some ([] : Record Nat) ∧
      rlookup ([] : Record Nat) "missing" = none ∧
      deleteOp stConn "missing" = ⟨none, some (), stConn⟩ :=
  ⟨rfl, rfl, rfl, delete_absent_c10 stConn "missing" [] rfl rfl rfl⟩

end CocoaMem

namespace CocoaMem

/-! ### Attach step `CocoaMemory._attached` (`memory.py` lines 200-247) -/

/-- Python truthiness of `self._last_config` (`None` and the empty dict
are falsy). -/
def optTruthy {α : Type} : Option (Record α) → Bool
  | some c => !c.isEmpty
  | none => false

/-- `CocoaMemory._attached` (`memory.py` lines 200-247): read the
32-byte header block (read failure → disconnect, no error propagated);
mark connected; decode the header.  On a header-format error,
initialize: install a fresh header (`uidGen`/`now` stand for the
generated `uuid.uuid1()` and `timestamp_utc()` values) as both current
and last header, set the record to `{"name": generate_name()}`
(`nameGen` stands for the generated name value) and save immediately.
On success with `data_length > 0`, reuse the cached record when the
header equals the last header and a last record is cached, otherwise
read the payload and adopt `msgpack.loads` of it (`mloads`) as last and
current record — with no check of `data_checksum` against the payload
bytes; an error from the payload read propagates.  With
`data_length = 0` the record is the empty mapping.  (The autosave timer
arming and the readiness notification carry no state modelled here.) -/
def attached {α : Type} (uidGen : List Nat) (now : Nat) (nameGen : α)
    (mdumps : Record α → List Nat) (mloads : List Nat → Record α)
    (st : Ctl α) (dev : Dev) : StepOut α :=
  match dev.readFn 0 32 with
  | .error _ => ⟨none, { st with connected := false }, dev⟩
  | .ok header_data =>
    let st1 := { st with connected := true }
    match Header.from_bytes header_data with
    | .error _ =>
      let fh := Header.fresh uidGen now
      save now mdumps
        { st1 with header := some fh, last_header := some fh,
                   config := some [("name", nameGen)] } dev
    | .ok hd =>
      let st2 := { st1 with header := some hd }
      if hd.data_length > 0 then
        if st2.last_header = some hd ∧ optTruthy st2.last_config then
          ⟨none, { st2 with config := st2.last_config }, dev⟩
        else
          match dev.readFn hd.get_data_address hd.data_length with
          | .error _ => ⟨some .deviceError, st2, dev⟩
          | .ok data =>
            ⟨none, { st2 with last_config := some (mloads data),
                              config := some (mloads data) }, dev⟩
      else ⟨none, { st2 with config := some ([] : Record α) }, dev⟩

/-- Device for C1: a valid header at address 0 announcing a 1-byte
payload with stored `data_checksum = [0, 0]`, and a payload byte at
address 256 whose checksum is not `[0, 0]`. -/
def h1C : Header :=
  { uid := List.replicate 16 0, timestamp := 0, data_length := 1,
    data_checksum := [0, 0] }

def devC1 : Dev :=
  { readFn := fun a n =>
      if a = 0 ∧ n = 32 then .ok h1C.to_bytes
      else if a = 256 ∧ n = 1 then .ok [0x42] else .error () }

def loadsC1 : List Nat → Record Nat := fun _ => [("k", 7)]

/-- Evaluation of `save` when the state is loaded and neither write
fails. -/
lemma save_ok {α : Type} (now : Nat) (mdumps : Record α → List Nat)
    (st : Ctl α) (dev : Dev) (hd : Header) (cfg : Record α)
    (hh : st.header = some hd) (hc : st.config = some cfg)
    (hf0 : dev.failAt dev.wcount = false)
    (hf1 : dev.failAt (dev.wcount + 1) = false) :
    save now mdumps st dev =
      ⟨none,
        { st with header := some (hd.update now (mdumps cfg)),
                  last_config := some cfg },
        { dev with
            writes := dev.writes ++
              [((hd.update now (mdumps cfg)).get_data_address, mdumps cfg),
                (0, (hd.update now (mdumps cfg)).to_bytes)],
            wcount := dev.wcount + 1 + 1 }⟩ := by
  simp only [save, hh, hc, devWrite, hf0, if_false, hf1]
  simp [hf1, List.append_assoc]

/-- Evaluation of `save` when the first (payload) write fails. -/
lemma save_fail1 {α : Type} (now : Nat) (mdumps : Record α → List Nat)
    (st : Ctl α) (dev : Dev) (hd : Header) (cfg : Record α)
    (hh : st.header = some hd) (hc : st.config = some cfg)
    (hf0 : dev.failAt dev.wcount = true) :
    save now mdumps st dev = ⟨some .deviceError, st, dev⟩ := by
  simp [save, hh, hc, devWrite, hf0]

/-- Evaluation of `save` when the second (header) write fails. -/
lemma save_fail2 {α : Type} (now : Nat) (mdumps : Record α → List Nat)
    (st : Ctl α) (dev : Dev) (hd : Header) (cfg : Record α)
    (hh : st.header = some hd) (hc : st.config = some cfg)
    (hf0 : dev.failAt dev.wcount = false)
    (hf1 : dev.failAt (dev.wcount + 1) = true) :
    save now mdumps st dev =
      ⟨some .deviceError, st,
        { dev with
            writes := dev.writes ++
              [((hd.update now (mdumps cfg)).get_data_address, mdumps cfg)],
            wcount := dev.wcount + 1 }⟩ := by
  simp [save, hh, hc, devWrite, hf0, hf1]

/-- Evaluation of `_attached` on the header-format-error path. -/
lemma attached_header_error {α : Type} (uidGen : List Nat) (now : Nat)
    (nameGen : α) (mdumps : Record α → List Nat)
    (mloads : List Nat → Record α) (st : Ctl α) (dev : Dev)
    (hdata : List Nat) (e : HeaderErr)
    (hread : dev.readFn 0 32 = .ok hdata)
    (hdec : Header.from_bytes hdata = .error e) :
    attached uidGen now nameGen mdumps mloads st dev =
      save now mdumps
        { st with connected := true,
                  header := some (Header.fresh uidGen now),
                  last_header := some (Header.fresh uidGen now),
                  config := some [("name", nameGen)] } dev := by
  simp only [attached]
  split
  · next a heq => rw [hread] at heq; cases heq
  · next bs heq =>
    rw [hread] at heq
    cases heq
    split
    · next e' heq2 => rfl
    · next hd heq2 => rw [hdec] at heq2; cases heq2

/-- Evaluation of `_attached` on the decode-success path with a
positive payload length, a failed unchanged-data shortcut, and a
successful payload read: the decoded payload is adopted. -/
lemma attached_payload_adopt {α : Type} (uidGen : List Nat) (now : Nat)
    (nameGen : α) (mdumps : Record α → List Nat)
    (mloads : List Nat → Record α) (st : Ctl α) (dev : Dev)
    (hdata : List Nat) (hd : Header) (pdata : List Nat)
    (hread : dev.readFn 0 32 = .ok hdata)
    (hdec : Header.from_bytes hdata = .ok hd)
    (hlen : 0 < hd.data_length)
    (hshort : ¬(st.last_header = some hd ∧ optTruthy st.last_config))
    (hpay : dev.readFn hd.get_data_address hd.data_length = .ok pdata) :
    attached uidGen now nameGen mdumps mloads st dev =
      ⟨none,
        { st with connected := true, header := some hd,
                  last_config := some (mloads pdata),
                  config := some (mloads pdata) }, dev⟩ := by
  simp only [attached]
  split
  · next a heq => rw [hread] at heq; cases heq
  · next bs heq =>
    rw [hread] at heq
    cases heq
    split
    · next e' heq2 => rw [hdec] at heq2; cases heq2
    · next hd' heq2 =>
      rw [hdec] at heq2
      cases heq2
      rw [if_pos hlen, if_neg hshort]
      split
      · next a heq3 => rw [hpay] at heq3; cases heq3
      · next data heq3 =>
        rw [hpay] at heq3
        cases heq3
        rfl

/-- C1 (code bug): on a device whose valid header announces a payload
whose actual bytes do not match `data_checksum`, the attach step does
not fail closed — it adopts the decoded payload as the current record
without ever comparing `checksum(payload)` with `data_checksum`. -/
theorem attach_unvalidated_c1 :
    (attached (List.replicate 16 0) 0 0 (fun _ => []) loadsC1
        ({} : Ctl Nat) devC1).err = none ∧
      (attached (List.replicate 16 0) 0 0 (fun _ => []) loadsC1
          ({} : Ctl Nat) devC1).ctl.config = some (loadsC1 [0x42]) ∧
      (attached (List.replicate 16 0) 0 0 (fun _ => []) loadsC1
          ({} : Ctl Nat) devC1).ctl.header = some h1C ∧
      crc16_ccitt [0x42] ≠ h1C.data_checksum := by
  have hwf : h1C.wf := by decide
  have hout := attached_payload_adopt (List.replicate 16 0) 0 0 (fun _ => [])
    loadsC1 ({} : Ctl Nat) devC1 h1C.to_bytes h1C [0x42]
    rfl (from_bytes_to_bytes h1C hwf) (by decide) (by simp [optTruthy]) rfl
  rw [hout]
  exact ⟨rfl, rfl, rfl, by decide⟩

/-- Fixtures for C4: a device holding 32 zero bytes (decode fails with
`InvalidMagic`) and concrete generated values. -/
def devC4 : Dev :=
  { readFn := fun a n =>
      if a = 0 ∧ n = 32 then .ok (List.replicate 32 0) else .error () }

def dumpC4 : Record Nat → List Nat := fun _ => [9]

def loadsC4 : List Nat → Record Nat := fun _ => []

deriving instance DecidableEq for Except

/-- C4 counterexample: the header synthesized on a decode failure does
not have a zero data checksum — its `data_checksum` is `NULL_CRC16 =
[0xFF, 0xFF]`, the CRC of the empty byte sequence, and it is retained
as `_last_header` after the immediate save. -/
theorem attach_init_c4_counterexample :
    (attached (List.replicate 16 7) 5 0 dumpC4 loadsC4
        ({} : Ctl Nat) devC4).ctl.last_header =
      some (Header.fresh (List.replicate 16 7) 5) ∧
      (Header.fresh (List.replicate 16 7) 5).data_checksum ≠ [0, 0] := by
  have hout := attached_header_error (List.replicate 16 7) 5 0 dumpC4 loadsC4
    ({} : Ctl Nat) devC4 (List.replicate 32 0) .invalidMagic rfl (by decide)
  rw [hout]
  refine ⟨?_, by decide⟩
  simp [save, devWrite, devC4]

/-- C4 (amended): on any header-format decode error the attach step
propagates no error; it synthesizes a brand-new header with the freshly
generated 128-bit identifier, zero data length and `data_checksum`
equal to the empty-sequence CRC constant `NULL_CRC16 = 0xFFFF` (not
zero), keeps it as the last header, sets the cached record to the
minimal default `{"name": generated-name}` and performs an immediate
save (payload write then header write of the updated header). -/
theorem attach_format_error_c4 {α : Type} (uidGen : List Nat) (now : Nat)
    (nameGen : α) (mdumps : Record α → List Nat)
    (mloads : List Nat → Record α) (st : Ctl α) (dev : Dev)
    (hdata : List Nat) (e : HeaderErr)
    (hread : dev.readFn 0 32 = .ok hdata)
    (hdec : Header.from_bytes hdata = .error e)
    (hf0 : dev.failAt dev.wcount = false)
    (hf1 : dev.failAt (dev.wcount + 1) = false) :
    (Header.fresh uidGen now).uid = uidGen ∧
      (Header.fresh uidGen now).data_length = 0 ∧
      (Header.fresh uidGen now).data_checksum = NULL_CRC16 ∧
      (attached uidGen now nameGen mdumps mloads st dev).err = none ∧
      (attached uidGen now nameGen mdumps mloads st dev).ctl.connected = true ∧
      (attached uidGen now nameGen mdumps mloads st dev).ctl.last_header =
        some (Header.fresh uidGen now) ∧
      (attached uidGen now nameGen mdumps mloads st dev).ctl.config =
        some [("name", nameGen)] ∧
      (attached uidGen now nameGen mdumps mloads st dev).ctl.last_config =
        some [("name", nameGen)] ∧
      (attached uidGen now nameGen mdumps mloads st dev).ctl.header =
        some ((Header.fresh uidGen now).update now
          (mdumps [("name", nameGen)])) ∧
      (attached uidGen now nameGen mdumps mloads st dev).dev.writes =
        dev.writes ++ [(256, mdumps [("name", nameGen)]),
          (0, ((Header.fresh uidGen now).update now
            (mdumps [("name", nameGen)])).to_bytes)] := by
  have hout := attached_header_error uidGen now nameGen mdumps mloads st dev
    hdata e hread hdec
  rw [hout]
  refine ⟨rfl, rfl, rfl, ?_, ?_, ?_, ?_, ?_, ?_, ?_⟩ <;>
    simp [save, devWrite, hf0, hf1, Header.get_data_address, Header.update,
      Header.fresh]

/-- Witness for C4 (amended) on the all-zero device. -/
theorem attach_format_error_c4_witness :
    devC4.readFn 0 32 = .ok (List.replicate 32 0) ∧
      Header.from_bytes (List.replicate 32 0) = .error .invalidMagic ∧
      devC4.failAt devC4.wcount = false ∧
      devC4.failAt (devC4.wcount + 1) = false ∧
      ((Header.fresh (List.replicate 16 7) 5).uid = List.replicate 16 7 ∧
        (Header.fresh (List.replicate 16 7) 5).data_length = 0 ∧
        (Header.fresh (List.replicate 16 7) 5).data_checksum = NULL_CRC16 ∧
        (attached (List.replicate 16 7) 5 1 dumpC4 loadsC4
          ({} : Ctl Nat) devC4).err = none ∧
        (attached (List.replicate 16 7) 5 1 dumpC4 loadsC4
          ({} : Ctl Nat) devC4).ctl.connected = true ∧
        (attached (List.replicate 16 7) 5 1 dumpC4 loadsC4
            ({} : Ctl Nat) devC4).ctl.last_header =
          some (Header.fresh (List.replicate 16 7) 5) ∧
        (attached (List.replicate 16 7) 5 1 dumpC4 loadsC4
            ({} : Ctl Nat) devC4).ctl.config = some [("name", 1)] ∧
        (attached (List.replicate 16 7) 5 1 dumpC4 loadsC4
            ({} : Ctl Nat) devC4).ctl.last_config = some [("name", 1)] ∧
        (attached (List.replicate 16 7) 5 1 dumpC4 loadsC4
            ({} : Ctl Nat) devC4).ctl.header =
          some ((Header.fresh (List.replicate 16 7) 5).update 5
            (dumpC4 [("name", 1)])) ∧
        (attached (List.replicate 16 7) 5 1 dumpC4 loadsC4
            ({} : Ctl Nat) devC4).dev.writes =
          devC4.writes ++ [(256, dumpC4 [("name", 1)]),
            (0, ((Header.fresh (List.replicate 16 7) 5).update 5
              (dumpC4 [("name", 1)])).to_bytes)]) :=
  ⟨rfl, by decide, rfl, rfl,
    attach_format_error_c4 (List.replicate 16 7) 5 1 dumpC4 loadsC4
      ({} : Ctl Nat) devC4 (List.replicate 32 0) .invalidMagic
      rfl (by decide) rfl rfl⟩

end CocoaMem

namespace CocoaMem

/-! ### Single-bit-flip sensitivity of the CRC -/

/-- Flip bit `j` of byte `i` of a byte string. -/
def flipBit (v : List Nat) (i j : Nat) : List Nat :=
  v.set i (v.getD i 0 ^^^ (1 <<< j))

/-- Evolution of a state difference through one CRC bit step: the
difference evolves independently of the state and input bit. -/
def g (d : Nat) : Nat :=
  ((d <<< 1) &&& 0xffff) ^^^ (if d.testBit 15 then 0x1021 else 0)

/-- Iterate `g`. -/
def gIter : Nat → Nat → Nat
  | 0, d => d
  | k + 1, d => gIter k (g d)

lemma xorLeftComm (a b c : Nat) : a ^^^ (b ^^^ c) = b ^^^ (a ^^^ c) := by
  rw [← Nat.xor_assoc, Nat.xor_comm a b, Nat.xor_assoc]

lemma shiftLeft_one_xor (s d : Nat) :
    (s ^^^ d) <<< 1 = (s <<< 1) ^^^ (d <<< 1) := by
  apply Nat.eq_of_testBit_eq
  intro k
  by_cases hk : 1 ≤ k <;>
    simp [Nat.testBit_shiftLeft, Nat.testBit_xor, hk]

lemma shiftmask_xor (s d : Nat) :
    ((s ^^^ d) <<< 1) &&& 0xffff = ((s <<< 1) &&& 0xffff) ^^^ ((d <<< 1) &&& 0xffff) := by
  rw [shiftLeft_one_xor, Nat.and_xor_distrib_right]

/-- The CRC bit step is affine: a state difference `d` maps to `g d`. -/
lemma crcBit_xor (s d : Nat) (b : Bool) :
    crcBit (s ^^^ d) b = crcBit s b ^^^ g d := by
  simp only [crcBit, g, Nat.testBit_xor, shiftmask_xor]
  cases hs : s.testBit 15 <;> cases hd : d.testBit 15 <;> cases b <;>
    simp [Nat.xor_assoc, Nat.xor_comm, xorLeftComm, Nat.xor_self,
      Nat.xor_zero, Nat.zero_xor, Nat.xor_cancel_left, Nat.xor_cancel_right]

/-- Flipping the input bit of one CRC bit step changes the state by the
polynomial. -/
lemma crcBit_flip (s : Nat) (b : Bool) :
    crcBit s (!b) = crcBit s b ^^^ 0x1021 := by
  simp only [crcBit]
  cases hs : s.testBit 15 <;> cases b <;>
    simp [Nat.xor_assoc, Nat.xor_self, Nat.xor_zero, Nat.xor_cancel_right]

end CocoaMem

namespace CocoaMem

lemma g_lt (d : Nat) : g d < 65536 := by
  have hX : (d <<< 1) &&& 0xffff < 65536 :=
    Nat.lt_succ_of_le Nat.and_le_right
  have h16 : (65536 : Nat) = 2 ^ 16 := by norm_num
  unfold g
  split
  · rw [h16] at hX ⊢
    exact Nat.xor_lt_two_pow hX (by norm_num)
  · simpa using hX

lemma g_ne_zero (d : Nat) (hlt : d < 65536) (hne : d ≠ 0) : g d ≠ 0 := by
  by_cases hd : d.testBit 15 = true
  · have hg : g d = ((d <<< 1) &&& 0xffff) ^^^ 0x1021 := by
      unfold g; rw [if_pos hd]
    intro hzero
    have hbit0 : (g d).testBit 0 = true := by
      rw [hg, Nat.testBit_xor]
      have h1 : ((d <<< 1) &&& 0xffff).testBit 0 = false := by
        simp [Nat.testBit_and, Nat.testBit_shiftLeft]
      rw [h1]
      decide
    rw [hzero] at hbit0
    simp [Nat.zero_testBit] at hbit0
  · have hg : g d = (d <<< 1) &&& 0xffff := by
      unfold g; rw [if_neg hd]; exact Nat.xor_zero _
    have hd' : ¬ d / 2 ^ 15 % 2 = 1 := by
      simpa [Nat.testBit_to_div_mod] using hd
    have h15 : (2 : Nat) ^ 15 = 32768 := by norm_num
    have hsmall : d < 32768 := by rw [h15] at hd'; omega
    have hmask : (d <<< 1) &&& 0xffff = 2 * d := by
      rw [Nat.shiftLeft_eq]
      have h2 : (0xffff : Nat) = 2 ^ 16 - 1 := by norm_num
      rw [h2, Nat.and_pow_two_sub_one_eq_mod]
      have h3 : d * 2 ^ 1 = 2 * d := by ring
      rw [h3, Nat.mod_eq_of_lt (by omega)]
    rw [hg, hmask]
    omega

lemma gIter_lt (k : Nat) : ∀ d, d < 65536 → gIter k d < 65536 := by
  induction k with
  | zero => intro d hd; simpa [gIter] using hd
  | succ n ih => intro d hd; exact ih (g d) (g_lt d)

lemma gIter_ne_zero (k : Nat) : ∀ d, d < 65536 → d ≠ 0 → gIter k d ≠ 0 := by
  induction k with
  | zero => intro d _ hne; simpa [gIter] using hne
  | succ n ih =>
    intro d hd hne
    exact ih (g d) (g_lt d) (g_ne_zero d hd hne)

lemma gIter_add (a : Nat) : ∀ b d, gIter a (gIter b d) = gIter (a + b) d := by
  intro b
  induction b generalizing a with
  | zero => intro d; simp [gIter]
  | succ n ih =>
    intro d
    have h1 : gIter (n + 1) d = gIter n (g d) := rfl
    have h2 : a + (n + 1) = (a + n) + 1 := rfl
    rw [h1, ih, h2]
    rfl

/-- The CRC byte step is affine in the state. -/
lemma crcByte_xor (s d b : Nat) :
    crcByte (s ^^^ d) b = crcByte s b ^^^ gIter 8 d := by
  simp only [crcByte, crcBit_xor]
  simp [gIter]

/-- Flipping bit `j` of an input byte changes the CRC state after the
byte by `gIter j` of the polynomial. -/
lemma crcByte_flipbit (s b j : Nat) (hj : j < 8) :
    crcByte s (b ^^^ (1 <<< j)) = crcByte s b ^^^ gIter j 0x1021 := by
  interval_cases j <;>
  · simp only [crcByte, Nat.one_shiftLeft, Nat.testBit_xor, Nat.testBit_two_pow]
    norm_num
    simp only [crcBit_flip, crcBit_xor]
    simp [gIter]

lemma crcList_cons (s b : Nat) (r : List Nat) :
    crcList s (b :: r) = crcList (crcByte s b) r := rfl

lemma crcList_append (s : Nat) (l1 l2 : List Nat) :
    crcList s (l1 ++ l2) = crcList (crcList s l1) l2 := by
  simp [crcList, List.foldl_append]

/-- The CRC over a list is affine in the starting state. -/
lemma crcList_xor (m : List Nat) : ∀ s d : Nat,
    crcList (s ^^^ d) m = crcList s m ^^^ gIter (8 * m.length) d := by
  induction m with
  | nil => intro s d; simp [crcList, gIter]
  | cons b t ih =>
    intro s d
    rw [crcList_cons, crcList_cons, crcByte_xor, ih]
    rw [gIter_add]
    have : 8 * t.length + 8 = 8 * (b :: t).length := by
      simp [List.length_cons]; ring
    rw [this]

/-- Flipping one bit of one byte anywhere in the message changes the
CRC. -/
lemma crc16_flipByte_ne (pre suf : List Nat) (b j : Nat) (hj : j < 8) :
    crc16 (pre ++ (b ^^^ (1 <<< j)) :: suf) ≠ crc16 (pre ++ b :: suf) := by
  rw [crc16, crc16, crcList_append, crcList_append, crcList_cons, crcList_cons,
    crcByte_flipbit _ _ _ hj, crcList_xor, gIter_add]
  have hD : gIter (8 * suf.length + j) 0x1021 ≠ 0 :=
    gIter_ne_zero _ _ (by norm_num) (by norm_num)
  intro heq
  apply hD
  set A := crcList (crcByte (crcList 0xffff pre) b) suf with hA
  calc gIter (8 * suf.length + j) 0x1021
      = A ^^^ (A ^^^ gIter (8 * suf.length + j) 0x1021) :=
        (Nat.xor_cancel_left _ _).symm
    _ = A ^^^ A := by rw [heq]
    _ = 0 := Nat.xor_self A

/-- Flipping one bit of the byte at index `i` changes the CRC of the
whole message. -/
lemma crc16_set_ne (m : List Nat) (i j : Nat) (hi : i < m.length)
    (hj : j < 8) :
    crc16 (m.set i (m.getD i 0 ^^^ (1 <<< j))) ≠ crc16 m := by
  have hset : m.set i (m.getD i 0 ^^^ (1 <<< j)) =
      m.take i ++ (m.getD i 0 ^^^ (1 <<< j)) :: m.drop (i + 1) := by
    rw [List.set_eq_take_append_cons_drop, if_pos hi]
  have hm : m = m.take i ++ m.getD i 0 :: m.drop (i + 1) := by
    conv_lhs => rw [← List.take_append_drop i m]
    rw [← List.getElem_cons_drop m i hi, List.getD_eq_getElem m 0 hi]
  rw [hset]
  conv_rhs => rw [hm]
  exact crc16_flipByte_ne _ _ _ _ hj

/-- The two checksum bytes determine the checksum value. -/
lemma crc16_ccitt_inj (m m' : List Nat) (h : crc16_ccitt m = crc16_ccitt m') :
    crc16 m = crc16 m' := by
  simp only [crc16_ccitt, List.cons.injEq] at h
  omega

end CocoaMem

namespace CocoaMem

lemma xor_pow_ne_self (a j : Nat) : a ^^^ (1 <<< j) ≠ a := by
  intro heq
  have h2 : (1 <<< j) = 0 := by
    calc 1 <<< j = a ^^^ (a ^^^ 1 <<< j) := (Nat.xor_cancel_left _ _).symm
      _ = a ^^^ a := by rw [heq]
      _ = 0 := Nat.xor_self _
  rw [Nat.one_shiftLeft] at h2
  exact absurd h2 (Nat.two_pow_pos j).ne'

lemma take_set_of_le' {α : Type} (l : List α) (i n : Nat) (a : α)
    (h : n ≤ i) : (l.set i a).take n = l.take n := by
  apply List.ext_getElem?
  intro m
  by_cases hm : m < n
  · have him : i ≠ m := by omega
    simp [List.getElem?_take, hm, List.getElem?_set_ne him]
  · simp [List.getElem?_take, hm]

lemma take_set_of_lt' {α : Type} (l : List α) (i n : Nat) (a : α)
    (h : i < n) : (l.set i a).take n = (l.take n).set i a := by
  apply List.ext_getElem?
  intro m
  by_cases him : i = m
  · subst him
    by_cases hil : i < l.length
    · simp [List.getElem?_take, List.getElem?_set, h, hil, List.length_take]
    · simp [List.getElem?_take, List.getElem?_set, h, hil, List.length_take]
  · by_cases hm : m < n <;>
      simp [List.getElem?_take, List.getElem?_set_ne him, hm]

lemma getD_take_of_lt (l : List Nat) (n i : Nat) (h : i < n) :
    (l.take n).getD i 0 = l.getD i 0 := by
  simp [List.getD_eq_getElem?_getD, List.getElem?_take, h]

lemma getD_drop' (l : List Nat) (n m : Nat) :
    (l.drop n).getD m 0 = l.getD (n + m) 0 := by
  simp [List.getD_eq_getElem?_getD, List.getElem?_drop]

lemma headD_set_pos {α : Type} (l : List α) (k : Nat) (a d : α)
    (h : 0 < k) : (l.set k a).headD d = l.headD d := by
  cases k with
  | zero => omega
  | succ k' => cases l <;> simp [List.set]

lemma set_xor_ne (l : List Nat) (k j : Nat) (hk : k < l.length) :
    l.set k (l.getD k 0 ^^^ (1 <<< j)) ≠ l := by
  intro heq
  have hg := congrArg (fun x => x.getD k 0) heq
  simp only at hg
  have hset : (l.set k (l.getD k 0 ^^^ (1 <<< j))).getD k 0 =
      l.getD k 0 ^^^ (1 <<< j) := by
    rw [List.getD_eq_getElem _ 0 (by simpa using hk)]
    exact List.getElem_set_self _
  rw [hset] at hg
  exact xor_pow_ne_self _ j hg

/-- Elimination of a successful decode into the three checks it
passed. -/
lemma from_bytes_ok_elim (v : List Nat) (h : Header)
    (hdec : Header.from_bytes v = .ok h) :
    v.take 2 = [0xc0, 0xc0] ∧ (v.drop 2).headD 0 = 1 ∧
      crc16_ccitt (v.take (v.length - 2)) = v.drop (v.length - 2) := by
  simp only [Header.from_bytes] at hdec
  by_cases c1 : v.take 2 ≠ [0xc0, 0xc0]
  · rw [if_pos c1] at hdec; exact Except.noConfusion hdec
  · rw [if_neg c1] at hdec
    by_cases c2 : (v.drop 2).headD 0 ≠ 1
    · rw [if_pos c2] at hdec; exact Except.noConfusion hdec
    · rw [if_neg c2] at hdec
      by_cases c3 : crc16_ccitt (v.take (v.length - 2)) ≠ v.drop (v.length - 2)
      · rw [if_pos c3] at hdec; exact Except.noConfusion hdec
      · exact ⟨not_not.mp c1, not_not.mp c2, not_not.mp c3⟩

lemma from_bytes_magic_err (v : List Nat) (hc : v.take 2 ≠ [0xc0, 0xc0]) :
    Header.from_bytes v = .error .invalidMagic := by
  simp only [Header.from_bytes]
  rw [if_pos hc]

lemma from_bytes_version_err (v : List Nat) (h1 : v.take 2 = [0xc0, 0xc0])
    (h2 : (v.drop 2).headD 0 ≠ 1) :
    Header.from_bytes v = .error .invalidVersion := by
  simp only [Header.from_bytes]
  rw [if_neg (not_not.mpr h1), if_pos h2]

lemma from_bytes_checksum_err (v : List Nat) (h1 : v.take 2 = [0xc0, 0xc0])
    (h2 : (v.drop 2).headD 0 = 1)
    (h3 : crc16_ccitt (v.take (v.length - 2)) ≠ v.drop (v.length - 2)) :
    Header.from_bytes v = .error .invalidChecksum := by
  simp only [Header.from_bytes]
  rw [if_neg (not_not.mpr h1), if_neg (not_not.mpr h2), if_pos h3]

end CocoaMem

namespace CocoaMem

/-- C7: flipping any single bit of a 32-byte encoding that decodes
successfully makes decoding fail, with the error kind matching the
flipped region: magic bytes give `InvalidMagic`, the version byte gives
`InvalidVersion`, and every other byte — including the stored checksum
bytes — gives `InvalidChecksum`. -/
theorem decode_flip_c7 (v : List Nat) (h : Header) (i j : Nat)
    (hlen : v.length = 32) (hbytes : ∀ x ∈ v, x < 256)
    (hdec : Header.from_bytes v = .ok h) (hi : i < 32) (hj : j < 8) :
    Header.from_bytes (flipBit v i j) =
      .error (if i < 2 then HeaderErr.invalidMagic
        else if i = 2 then HeaderErr.invalidVersion
        else HeaderErr.invalidChecksum) := by
  obtain ⟨hm, hv2, hcs⟩ := from_bytes_ok_elim v h hdec
  have hcs30 : crc16_ccitt (v.take 30) = v.drop 30 := by
    rw [hlen] at hcs
    norm_num at hcs
    exact hcs
  obtain ⟨b0, b1, b2, t, rfl⟩ : ∃ b0 b1 b2 t, v = b0 :: b1 :: b2 :: t := by
    match v, hlen with
    | b0 :: b1 :: b2 :: t, _ => exact ⟨b0, b1, b2, t, rfl⟩
  have hm' : b0 = 0xc0 ∧ b1 = 0xc0 := by
    have he : (b0 :: b1 :: b2 :: t).take 2 = [b0, b1] := rfl
    rw [he] at hm
    simpa using hm
  obtain ⟨rfl, rfl⟩ := hm'
  have hb2 : b2 = 1 := by
    have he : ((0xc0 :: 0xc0 :: b2 :: t).drop 2).headD 0 = b2 := rfl
    rw [he] at hv2
    exact hv2
  subst hb2
  by_cases hi0 : i = 0
  · subst hi0
    rw [if_pos (by omega)]
    have hflip : flipBit (0xc0 :: 0xc0 :: 1 :: t) 0 j =
        (0xc0 ^^^ (1 <<< j)) :: 0xc0 :: 1 :: t := rfl
    rw [hflip]
    apply from_bytes_magic_err
    intro hx
    have he : ((0xc0 ^^^ (1 <<< j)) :: 0xc0 :: 1 :: t).take 2 =
        [0xc0 ^^^ (1 <<< j), 0xc0] := rfl
    rw [he] at hx
    have hxx : 0xc0 ^^^ (1 <<< j) = 0xc0 := by simpa using hx
    exact xor_pow_ne_self _ j hxx
  by_cases hi1 : i = 1
  · subst hi1
    rw [if_pos (by omega)]
    have hflip : flipBit (0xc0 :: 0xc0 :: 1 :: t) 1 j =
        0xc0 :: (0xc0 ^^^ (1 <<< j)) :: 1 :: t := rfl
    rw [hflip]
    apply from_bytes_magic_err
    intro hx
    have he : (0xc0 :: (0xc0 ^^^ (1 <<< j)) :: 1 :: t).take 2 =
        [0xc0, 0xc0 ^^^ (1 <<< j)] := rfl
    rw [he] at hx
    have hxx : 0xc0 ^^^ (1 <<< j) = 0xc0 := by simpa using hx
    exact xor_pow_ne_self _ j hxx
  by_cases hi2 : i = 2
  · subst hi2
    rw [if_neg (by omega), if_pos rfl]
    have hflip : flipBit (0xc0 :: 0xc0 :: 1 :: t) 2 j =
        0xc0 :: 0xc0 :: (1 ^^^ (1 <<< j)) :: t := rfl
    rw [hflip]
    apply from_bytes_version_err
    · rfl
    · have he : ((0xc0 :: 0xc0 :: (1 ^^^ (1 <<< j)) :: t).drop 2).headD 0 =
          1 ^^^ (1 <<< j) := rfl
      rw [he]
      exact xor_pow_ne_self 1 j
  · have hi3 : 3 ≤ i := by omega
    rw [if_neg (by omega), if_neg (by omega)]
    have hwlen : (flipBit (0xc0 :: 0xc0 :: 1 :: t) i j).length = 32 := by
      simp only [flipBit, List.length_set]
      exact hlen
    apply from_bytes_checksum_err
    · simp only [flipBit]
      rw [take_set_of_le' _ _ _ _ (by omega : 2 ≤ i)]
      exact hm
    · simp only [flipBit]
      rw [List.drop_set, if_neg (by omega : ¬ i < 2),
        headD_set_pos _ _ _ _ (by omega : 0 < i - 2)]
      exact hv2
    · rw [hwlen, show (32 : Nat) - 2 = 30 from rfl]
      by_cases hi30 : i < 30
      · have htake : (flipBit (0xc0 :: 0xc0 :: 1 :: t) i j).take 30 =
            ((0xc0 :: 0xc0 :: 1 :: t).take 30).set i
              (((0xc0 :: 0xc0 :: 1 :: t).take 30).getD i 0 ^^^ (1 <<< j)) := by
          simp only [flipBit]
          rw [take_set_of_lt' _ _ _ _ hi30, getD_take_of_lt _ _ _ hi30]
        have hdrop : (flipBit (0xc0 :: 0xc0 :: 1 :: t) i j).drop 30 =
            (0xc0 :: 0xc0 :: 1 :: t).drop 30 := by
          simp only [flipBit]
          rw [List.drop_set, if_pos hi30]
        rw [htake, hdrop, ← hcs30]
        intro hx
        have hlen30 : ((0xc0 :: 0xc0 :: 1 :: t).take 30).length = 30 := by
          rw [List.length_take, hlen]
          omega
        exact crc16_set_ne _ i j (by omega) hj (crc16_ccitt_inj _ _ hx)
      · have h30le : 30 ≤ i := by omega
        have htake : (flipBit (0xc0 :: 0xc0 :: 1 :: t) i j).take 30 =
            (0xc0 :: 0xc0 :: 1 :: t).take 30 := by
          simp only [flipBit]
          exact take_set_of_le' _ _ _ _ h30le
        have hdrop : (flipBit (0xc0 :: 0xc0 :: 1 :: t) i j).drop 30 =
            ((0xc0 :: 0xc0 :: 1 :: t).drop 30).set (i - 30)
              (((0xc0 :: 0xc0 :: 1 :: t).drop 30).getD (i - 30) 0 ^^^
                (1 <<< j)) := by
          simp only [flipBit]
          rw [List.drop_set, if_neg (by omega : ¬ i < 30), getD_drop',
            show 30 + (i - 30) = i from by omega]
        rw [htake, hdrop, hcs30]
        refine (set_xor_ne _ _ j ?_).symm
        rw [List.length_drop, hlen]
        omega

end CocoaMem

namespace CocoaMem

lemma crcBit_lt (s : Nat) (b : Bool) : crcBit s b < 65536 := by
  have hX : (s <<< 1) &&& 0xffff < 65536 :=
    Nat.lt_succ_of_le Nat.and_le_right
  have h16 : (65536 : Nat) = 2 ^ 16 := by norm_num
  unfold crcBit
  split
  · rw [h16] at hX ⊢
    exact Nat.xor_lt_two_pow hX (by norm_num)
  · exact hX

lemma crcByte_lt (s b : Nat) : crcByte s b < 65536 := crcBit_lt _ _

lemma crcList_lt (m : List Nat) : ∀ s, s < 65536 → crcList s m < 65536 := by
  induction m with
  | nil => intro s hs; simpa [crcList] using hs
  | cons b t ih =>
    intro s hs
    rw [crcList_cons]
    exact ih _ (crcByte_lt s b)

lemma crc16_lt (m : List Nat) : crc16 m < 65536 :=
  crcList_lt m 0xffff (by norm_num)

lemma to_bytes_fresh_bytes_lt :
    ∀ x ∈ (Header.fresh (List.replicate 16 0) 0).to_bytes, x < 256 := by
  rw [to_bytes_eq_body]
  intro x hx
  rcases List.mem_append.mp hx with hb | hc
  · have hbody : headerBody (Header.fresh (List.replicate 16 0) 0) =
        [192, 192, 1, 0, 0, 0, 0, 0, 0, 0, 0, 0, 0, 0, 0, 0, 0, 0, 0, 0, 0, 0, 0, 0, 0, 0, 0, 0, 255, 255] := by decide
    rw [hbody] at hb
    exact (by decide : ∀ y ∈ ([192, 192, 1, 0, 0, 0, 0, 0, 0, 0, 0, 0, 0, 0, 0, 0, 0, 0, 0, 0, 0, 0, 0, 0, 0, 0, 0, 0, 255, 255] : List Nat), y < 256) x hb
  · simp only [crc16_ccitt, List.mem_cons, List.not_mem_nil, or_false] at hc
    have hlt := crc16_lt (headerBody (Header.fresh (List.replicate 16 0) 0))
    rcases hc with h1 | h1 <;> rw [h1] <;> omega

/-- Witness for C7: flipping bit 0 of byte 5 (inside the uid field) of
the encoding of a concrete fresh header makes decoding fail with
`InvalidChecksum`. -/
theorem decode_flip_c7_witness :
    (Header.fresh (List.replicate 16 0) 0).to_bytes.length = 32 ∧
      (∀ x ∈ (Header.fresh (List.replicate 16 0) 0).to_bytes, x < 256) ∧
      Header.from_bytes
          (flipBit (Header.fresh (List.replicate 16 0) 0).to_bytes 5 0) =
        .error .invalidChecksum :=
  ⟨by decide, to_bytes_fresh_bytes_lt,
    by
      have := decode_flip_c7 (Header.fresh (List.replicate 16 0) 0).to_bytes
        (Header.fresh (List.replicate 16 0) 0) 5 0 (by decide)
        to_bytes_fresh_bytes_lt
        (from_bytes_to_bytes _ (by decide)) (by decide) (by decide)
      simpa using this⟩

end CocoaMem
